import Mathlib

/-!
Verification of the custodial key-vault and signing subsystem of the
zero-spaces repository (Supabase edge functions `register`, `login`,
`upload-video-metadata`, schema `User`/`Video`).

External cryptographic primitives (Web Crypto PBKDF2 / AES-GCM, bcrypt,
djwt HMAC-SHA-256 tokens, ethers wallets) are modelled symbolically but
executably: an ideal KDF is injective in password and salt, an ideal
authenticated cipher decrypts exactly the bundles produced under the same
key and nonce, an ideal MAC binds the secret to the payload.  Everything
the repository itself implements — the hex encode/decode of `salt`, `iv`
and `encryptedPrivateKey`, the canonical message template, and the full
branch structure of the three request handlers — is embedded directly
from the source.
-/

/-! ## Byte-level helpers

A byte is a `Nat` that is `< 256` wherever it originates from real data
(`crypto.getRandomValues`, ciphertext bytes). -/

/-- Big-endian 4-byte encoding of a natural number below `2 ^ 32`.  Used by
the symbolic cipher to serialise lengths and character code points into
ciphertext bytes; every produced byte is `< 256`. -/
def word32 (n : Nat) : List Nat :=
  [n / 16777216 % 256, n / 65536 % 256, n / 256 % 256, n % 256]

/-- Inverse of `word32` on 4-element lists. -/
def unword32 : List Nat → Nat
  | [a, b, c, d] => ((a * 256 + b) * 256 + c) * 256 + d
  | _ => 0

theorem unword32_word32 {n : Nat} (h : n < 4294967296) :
    unword32 (word32 n) = n := by
  simp only [word32, unword32]
  omega

theorem word32_length (n : Nat) : (word32 n).length = 4 := rfl

theorem word32_lt (n : Nat) : ∀ b ∈ word32 n, b < 256 := by
  simp only [word32, List.mem_cons, List.not_mem_nil, or_false]
  rintro b (rfl | rfl | rfl | rfl) <;> omega

/-- Serialise a character list, 4 bytes per character (big-endian code
point).  Injective stand-in for `TextEncoder`: the UTF-8 details are
irrelevant to the flows, only round-trip fidelity and injectivity are. -/
def charsBytes : List Char → List Nat
  | [] => []
  | c :: cs => word32 c.toNat ++ charsBytes cs

/-- Inverse of `charsBytes`: chunk the byte list into 4-byte groups and
decode each code point; `none` when the length is not a multiple of 4.
Stand-in for `TextDecoder`. -/
def bytesToChars : List Nat → Option (List Char)
  | [] => some []
  | a :: b :: c :: d :: rest =>
      (bytesToChars rest).map (fun cs => Char.ofNat (unword32 [a, b, c, d]) :: cs)
  | _ => none

theorem char_toNat_lt (c : Char) : c.toNat < 4294967296 := by
  have he : c.toNat = c.val.toNat := rfl
  rcases c.valid with h | h
  · omega
  · omega

theorem bytesToChars_charsBytes (cs : List Char) :
    bytesToChars (charsBytes cs) = some cs := by
  induction cs with
  | nil => rfl
  | cons c cs ih =>
      show bytesToChars (word32 c.toNat ++ charsBytes cs) = some (c :: cs)
      simp only [word32, List.cons_append, List.nil_append, bytesToChars, ih]
      have : unword32 (word32 c.toNat) = c.toNat := unword32_word32 (char_toNat_lt c)
      simp only [word32] at this
      simp [this, Char.ofNat_toNat, ih]

theorem charsBytes_lt (cs : List Char) : ∀ b ∈ charsBytes cs, b < 256 := by
  induction cs with
  | nil => simp [charsBytes]
  | cons c cs ih =>
      simp only [charsBytes, List.mem_append]
      rintro b (hb | hb)
      · exact word32_lt _ b hb
      · exact ih b hb

theorem charsBytes_injective : Function.Injective charsBytes := by
  intro cs₁ cs₂ h
  induction cs₁ generalizing cs₂ with
  | nil =>
      cases cs₂ with
      | nil => rfl
      | cons c cs => simp [charsBytes, word32] at h
  | cons c cs ih =>
      cases cs₂ with
      | nil => simp [charsBytes, word32] at h
      | cons d ds =>
          simp only [charsBytes, word32, List.cons_append, List.nil_append,
            List.cons.injEq] at h
          obtain ⟨h1, h2, h3, h4, h5⟩ := h
          have hc : c.toNat = d.toNat := by
            have := char_toNat_lt c
            have := char_toNat_lt d
            omega
          have hcd : c = d := Char.ext (UInt32.toNat.inj hc)
          rw [hcd, ih h5]

/-! ## Hex codec

Embeds the repository's own serialisation code:
- register (`src/unnamed/part_005` lines 127–130):
  `Array.from(bytes).map(b => b.toString(16).padStart(2, '0')).join('')`
- upload-video-metadata (`index.ts` lines 106–108):
  `new Uint8Array(hex.match(/.{1,2}/g)!.map(byte => parseInt(byte, 16)))` -/

/-- The lowercase hex digit for `n < 16`, as produced by JS `toString(16)`. -/
def hexDigitChar (n : Nat) : Char :=
  if n < 10 then Char.ofNat (48 + n) else Char.ofNat (87 + n)

/-- Numeric value of a hex digit as computed by JS `parseInt(_, 16)` on the
digits `0-9`, `a-f`, `A-F`; other characters never arise from hex output
produced by `byteHexChars` (real `parseInt` yields `NaN` there). -/
def hexDigitVal (c : Char) : Nat :=
  if 48 ≤ c.toNat ∧ c.toNat ≤ 57 then c.toNat - 48
  else if 97 ≤ c.toNat ∧ c.toNat ≤ 102 then c.toNat - 87
  else if 65 ≤ c.toNat ∧ c.toNat ≤ 70 then c.toNat - 55
  else 0

/-- `b.toString(16).padStart(2, '0')` for a byte value `b < 256`: exactly two
lowercase hex digits. -/
def byteHexChars (b : Nat) : List Char :=
  [hexDigitChar (b / 16), hexDigitChar (b % 16)]

def bytesToHexChars : List Nat → List Char
  | [] => []
  | b :: bs => byteHexChars b ++ bytesToHexChars bs

/-- Hex-encode a byte list, as the register handler does before storing
`salt`, `iv` and `encryptedPrivateKey`. -/
def bytesToHex (bs : List Nat) : String :=
  String.mk (bytesToHexChars bs)

/-- `hex.match(/.{1,2}/g)`: split into chunks of two characters (a trailing
odd character forms a one-character chunk).  On the empty string the JS code
crashes (`match` returns `null`); the stored fields are never empty. -/
def hexPairChunks : List Char → List (List Char)
  | [] => []
  | [c] => [[c]]
  | a :: b :: rest => [a, b] :: hexPairChunks rest

/-- `parseInt(chunk, 16)` on a chunk of valid hex digits. -/
def parseHexChunk (p : List Char) : Nat :=
  p.foldl (fun acc c => 16 * acc + hexDigitVal c) 0

/-- Hex-decode a stored field, as the upload-video-metadata handler does for
`salt`, `iv` and `encryptedPrivateKey`. -/
def hexToBytes (s : String) : List Nat :=
  (hexPairChunks s.data).map parseHexChunk

theorem hexDigitVal_hexDigitChar {n : Nat} (h : n < 16) :
    hexDigitVal (hexDigitChar n) = n := by
  interval_cases n <;> rfl

theorem parseHexChunk_byteHexChars {b : Nat} (h : b < 256) :
    parseHexChunk (byteHexChars b) = b := by
  have h1 : b / 16 < 16 := by omega
  have h2 : b % 16 < 16 := by omega
  simp only [byteHexChars, parseHexChunk, List.foldl_cons, List.foldl_nil,
    hexDigitVal_hexDigitChar h1, hexDigitVal_hexDigitChar h2]
  omega

theorem hexToBytes_bytesToHex {bs : List Nat} (h : ∀ b ∈ bs, b < 256) :
    hexToBytes (bytesToHex bs) = bs := by
  induction bs with
  | nil => rfl
  | cons b bs ih =>
      have hb : b < 256 := h b (List.mem_cons_self b bs)
      have hrest : ∀ x ∈ bs, x < 256 := fun x hx => h x (List.mem_cons_of_mem b hx)
      show (hexPairChunks (byteHexChars b ++ bytesToHexChars bs)).map parseHexChunk
          = b :: bs
      simp only [byteHexChars, List.cons_append, List.nil_append, hexPairChunks,
        List.map_cons]
      refine congrArg₂ (· :: ·) ?_ ?_
      · exact parseHexChunk_byteHexChars hb
      · exact ih hrest

/-! ## Ideal KDF and authenticated cipher

`crypto.subtle` PBKDF2 (SHA-256, 100000 iterations, 256-bit output) and
AES-256-GCM are external primitives; they are modelled as an ideal KDF and
an ideal authenticated cipher.  The derived key is identified by the pair
(password, salt) that produced it; a ciphertext is a byte string that
serialises the key identity, the nonce and the plaintext, and decryption
succeeds exactly when the presented key and nonce match the ones used to
encrypt (the guarantee the GCM authentication tag provides). -/

structure AesKey where
  password : String
  salt : List Nat
deriving DecidableEq

/-- PBKDF2-HMAC-SHA-256, 100000 iterations, 256-bit key — as called
identically in the register and upload-video-metadata handlers — modelled
as an ideal (injective) KDF. -/
def deriveKey (password : String) (salt : List Nat) : AesKey :=
  ⟨password, salt⟩

/-- A length-prefixed component of the symbolic ciphertext. -/
def lenPrefixed (c : List Nat) : List Nat :=
  word32 c.length ++ c

/-- Read one length-prefixed component off the front of a byte stream. -/
def readComp (bs : List Nat) : Option (List Nat × List Nat) :=
  match bs with
  | a :: b :: c :: d :: rest =>
      let n := unword32 [a, b, c, d]
      if n ≤ rest.length then some (rest.take n, rest.drop n) else none
  | _ => none

theorem readComp_lenPrefixed {c : List Nat} (rest : List Nat)
    (h : c.length < 4294967296) :
    readComp (lenPrefixed c ++ rest) = some (c, rest) := by
  show readComp (word32 c.length ++ c ++ rest) = some (c, rest)
  simp only [word32, List.cons_append, List.nil_append, readComp]
  have hn : unword32 [c.length / 16777216 % 256, c.length / 65536 % 256,
      c.length / 256 % 256, c.length % 256] = c.length := by
    have := unword32_word32 h
    simpa [word32] using this
  rw [hn]
  have hle : c.length ≤ (c ++ rest).length := by
    simp [List.length_append]
  rw [if_pos hle, List.take_left, List.drop_left]

/-- AES-256-GCM encryption with the given key and 96-bit nonce `iv`,
modelled as the injective serialisation of (key identity, nonce,
plaintext); every byte of the output is `< 256` whenever the salt, nonce
and plaintext bytes are. -/
def aesGcmEncrypt (key : AesKey) (iv pt : List Nat) : List Nat :=
  lenPrefixed (charsBytes key.password.data) ++ lenPrefixed key.salt ++
    lenPrefixed iv ++ pt

/-- AES-256-GCM decryption: succeeds with the embedded plaintext exactly
when the ciphertext was produced under the same key and nonce, otherwise
fails (the authentication-tag check of real GCM). -/
def aesGcmDecrypt (key : AesKey) (iv ct : List Nat) : Option (List Nat) :=
  match readComp ct with
  | none => none
  | some (pwBytes, r1) =>
    match readComp r1 with
    | none => none
    | some (saltBytes, r2) =>
      match readComp r2 with
      | none => none
      | some (ivBytes, pt) =>
          if pwBytes = charsBytes key.password.data ∧ saltBytes = key.salt ∧
              ivBytes = iv then some pt else none

/-- Size bounds under which the symbolic serialisation is faithful; holds
with astronomical margin for every real password, 32-byte salt and 12-byte
nonce. -/
abbrev SmallSizes (password : String) (salt iv : List Nat) : Prop :=
  4 * password.data.length < 4294967296 ∧ salt.length < 4294967296 ∧
    iv.length < 4294967296

theorem charsBytes_length (cs : List Char) :
    (charsBytes cs).length = 4 * cs.length := by
  induction cs with
  | nil => rfl
  | cons c cs ih =>
      show (word32 c.toNat ++ charsBytes cs).length = 4 * (cs.length + 1)
      simp [word32, ih]
      omega

theorem aesGcmDecrypt_parse {password : String} {salt iv : List Nat}
    (pt : List Nat) (key : AesKey)
    (h : SmallSizes password salt iv) :
    aesGcmDecrypt key iv (aesGcmEncrypt (deriveKey password salt) iv pt) =
      if charsBytes password.data = charsBytes key.password.data ∧
          salt = key.salt ∧ iv = iv then some pt else none := by
  obtain ⟨h1, h2, h3⟩ := h
  have hlen1 : (charsBytes password.data).length < 4294967296 := by
    rw [charsBytes_length]; omega
  have he : aesGcmEncrypt (deriveKey password salt) iv pt =
      lenPrefixed (charsBytes password.data) ++
        (lenPrefixed salt ++ (lenPrefixed iv ++ pt)) := by
    simp [aesGcmEncrypt, deriveKey, List.append_assoc]
  rw [he]
  simp only [aesGcmDecrypt, readComp_lenPrefixed _ hlen1,
    readComp_lenPrefixed _ h2, readComp_lenPrefixed _ h3]

theorem aesGcmDecrypt_aesGcmEncrypt {password : String} {salt iv : List Nat}
    (pt : List Nat) (h : SmallSizes password salt iv) :
    aesGcmDecrypt (deriveKey password salt) iv
      (aesGcmEncrypt (deriveKey password salt) iv pt) = some pt := by
  rw [aesGcmDecrypt_parse pt (deriveKey password salt) h]
  simp [deriveKey]

theorem aesGcmDecrypt_wrong_password {password p2 : String}
    {salt iv : List Nat} (pt : List Nat)
    (h : SmallSizes password salt iv) (hne : p2 ≠ password) :
    aesGcmDecrypt (deriveKey p2 salt) iv
      (aesGcmEncrypt (deriveKey password salt) iv pt) = none := by
  rw [aesGcmDecrypt_parse pt (deriveKey p2 salt) h]
  have : charsBytes password.data ≠ charsBytes p2.data := by
    intro hc
    exact hne (String.ext (charsBytes_injective hc).symm)
  simp [deriveKey, this]

theorem aesGcmEncrypt_lt {key : AesKey} {iv pt : List Nat}
    (hs : ∀ b ∈ key.salt, b < 256) (hi : ∀ b ∈ iv, b < 256)
    (hp : ∀ b ∈ pt, b < 256) :
    ∀ b ∈ aesGcmEncrypt key iv pt, b < 256 := by
  intro b hb
  simp only [aesGcmEncrypt, lenPrefixed, List.append_assoc, List.mem_append] at hb
  rcases hb with hb | hb | hb | hb | hb | hb | hb <;>
    first
      | exact word32_lt _ b hb
      | exact charsBytes_lt _ b hb
      | exact hs b hb
      | exact hi b hb
      | exact hp b hb

/-! ## Wrapped-key bundle: the pipeline the handlers compose

`wrapKey` is the registration-side composition (part_005 lines 90–131):
fresh salt/iv, PBKDF2, AES-GCM encrypt of the UTF-8 bytes of the private
key, hex-encode all three fields.  `unwrapKey` is the signing-side
composition (index.ts lines 105–152): hex-decode all three fields, PBKDF2
on the supplied password with the stored salt, AES-GCM decrypt, text-decode
the plaintext. -/

structure WrappedBundle where
  salt : String
  iv : String
  ciphertext : String
deriving DecidableEq

/-- `TextDecoder().decode` on bytes produced by `TextEncoder`; on byte
strings that are not a valid encoding it substitutes the empty string
(real `TextDecoder` substitutes replacement characters — never reached by
the flows proved here). -/
def textDecode (bs : List Nat) : String :=
  match bytesToChars bs with
  | some cs => String.mk cs
  | none => ""

def wrapKey (privateKey password : String) (salt iv : List Nat) :
    WrappedBundle :=
  let key := deriveKey password salt
  let ct := aesGcmEncrypt key iv (charsBytes privateKey.data)
  ⟨bytesToHex salt, bytesToHex iv, bytesToHex ct⟩

def unwrapKey (bundle : WrappedBundle) (password : String) : Option String :=
  let salt := hexToBytes bundle.salt
  let iv := hexToBytes bundle.iv
  let ct := hexToBytes bundle.ciphertext
  let key := deriveKey password salt
  match aesGcmDecrypt key iv ct with
  | none => none
  | some pt => some (textDecode pt)

/-- The salt and nonce are byte strings (as delivered by
`crypto.getRandomValues` into a `Uint8Array`). -/
abbrev ByteList (bs : List Nat) : Prop := ∀ b ∈ bs, b < 256

theorem unwrapKey_wrapKey {privateKey password : String} {salt iv : List Nat}
    (hs : ByteList salt) (hi : ByteList iv)
    (hsz : SmallSizes password salt iv) :
    unwrapKey (wrapKey privateKey password salt iv) password =
      some privateKey := by
  have hct : ByteList (aesGcmEncrypt (deriveKey password salt) iv
      (charsBytes privateKey.data)) :=
    aesGcmEncrypt_lt hs hi (charsBytes_lt _)
  show unwrapKey ⟨bytesToHex salt, bytesToHex iv, bytesToHex _⟩ password = _
  rw [unwrapKey]
  simp only [hexToBytes_bytesToHex hs, hexToBytes_bytesToHex hi,
    hexToBytes_bytesToHex hct]
  rw [aesGcmDecrypt_aesGcmEncrypt _ hsz]
  simp [textDecode, bytesToChars_charsBytes]

theorem unwrapKey_wrapKey_wrong_password {privateKey password p2 : String}
    {salt iv : List Nat} (hs : ByteList salt) (hi : ByteList iv)
    (hsz : SmallSizes password salt iv) (hne : p2 ≠ password) :
    unwrapKey (wrapKey privateKey password salt iv) p2 = none := by
  have hct : ByteList (aesGcmEncrypt (deriveKey password salt) iv
      (charsBytes privateKey.data)) :=
    aesGcmEncrypt_lt hs hi (charsBytes_lt _)
  show unwrapKey ⟨bytesToHex salt, bytesToHex iv, bytesToHex _⟩ p2 = _
  rw [unwrapKey]
  simp only [hexToBytes_bytesToHex hs, hexToBytes_bytesToHex hi,
    hexToBytes_bytesToHex hct]
  rw [aesGcmDecrypt_wrong_password _ hsz hne]

/-! ## External collaborators: bcrypt, ethers wallet, djwt tokens

Modelled symbolically (ideal primitives), executably, with the exact call
shapes the handlers use. -/

/-- A bcrypt hash value.  `rand` stands for the random bcrypt salt/cost
embedded in the hash string; the ideal model lets `bcryptVerify` recognise
exactly the password that was hashed. -/
structure BcryptHash where
  password : String
  rand : Nat
deriving DecidableEq

/-- `hash(password)` from `deno.land/x/bcrypt` (register handler). -/
def bcryptHash (password : String) (rand : Nat) : BcryptHash :=
  ⟨password, rand⟩

/-- `verify(password, passwordHash)` from `deno.land/x/bcrypt` (login
handler). -/
def bcryptVerify (password : String) (h : BcryptHash) : Bool :=
  h.password = password

/-- `new ethers.Wallet(pk).address` — deterministic re-derivation of the
EIP-55 address from a private key, modelled as an injective abstract map.
`ethers.Wallet.createRandom()` is modelled by the environment supplying a
fresh `privateKey`; its `address` field equals `deriveAddress privateKey`,
which is exactly how ethers computes it. -/
def deriveAddress (privateKey : String) : String :=
  String.append "0xaddr:" privateKey

/-- An ECDSA personal-message signature as produced by
`signer.signMessage(message)`.  Symbolic: a signature value is identified
by the signing key and the message (ethers signatures are deterministic
per key and message). -/
structure EthSignature where
  privateKey : String
  message : String
deriving DecidableEq

def signMessage (privateKey message : String) : EthSignature :=
  ⟨privateKey, message⟩

/-- The claims djwt embeds for this app (login handler lines 307–313). -/
structure JwtPayload where
  sub : Nat
  email : String
  walletAddress : String
  iat : Nat
  exp : Nat
deriving DecidableEq

/-- An HS256 JWT.  The `mac` field models the HMAC-SHA-256 tag: an ideal
MAC is a binding commitment to the secret and the signed payload, so a
token verifies under `secret` exactly when its tag was computed with
`secret` over its own payload — any alteration of the payload or tag
breaks this. -/
structure Jwt where
  payload : JwtPayload
  mac : String × JwtPayload
deriving DecidableEq

/-- `create({ alg: 'HS256', typ: 'JWT' }, payload, key)` from djwt. -/
def jwtCreate (secret : String) (p : JwtPayload) : Jwt :=
  ⟨p, (secret, p)⟩

/-- `getNumericDate` from djwt v2.8: `Math.round(date.getTime() / 1000)`. -/
def numericDate (ms : Nat) : Nat :=
  (ms + 500) / 1000

/-- `verify(token, key)` from djwt v2.8 at current time `nowMs`
(milliseconds): checks the MAC and that the `exp` claim (seconds) is not
in the past; returns the payload on success.  (djwt checks the signature
before `exp`; both failures surface as the same thrown error in the
handler, so the order is immaterial to the result.) -/
def jwtVerify (secret : String) (nowMs : Nat) (t : Jwt) : Option JwtPayload :=
  if t.mac = (secret, t.payload) ∧ ¬ 1000 * t.payload.exp < nowMs then
    some t.payload
  else none

/-! ## Data model: `User` and `Video` rows, the store -/

/-- A row of the `User` table (schema in `src/unnamed/part_005`).
Timestamps are the textual values the storage layer holds. -/
structure UserRow where
  id : Nat
  email : String
  username : String
  passwordHash : BcryptHash
  walletAddress : String
  encryptedPrivateKey : String
  salt : String
  iv : String
  createdAt : String
  updatedAt : String
deriving DecidableEq

/-- A row of the `Video` table.  `createdAt` is filled by the column
default `timezone('utc', now())`, not by the handler. -/
structure VideoRow where
  id : Nat
  title : String
  videoUrl : String
  ownerId : Nat
  signature : EthSignature
  createdAt : String
deriving DecidableEq

/-- The persisted store. -/
structure DB where
  users : List UserRow
  videos : List VideoRow
deriving DecidableEq

/-- `.from('User').select(...).eq('email', email).single()` — a
case-sensitive equality filter (Postgres `=` on `TEXT`); `single()` is
`none` when no row matches (emails are unique, so at most one can). -/
def findUserByEmail (db : DB) (email : String) : Option UserRow :=
  db.users.find? (fun u => u.email = email)

/-- `.from('User').select(...).eq('id', id).single()`. -/
def findUserById (db : DB) (id : Nat) : Option UserRow :=
  db.users.find? (fun u => u.id = id)

/-- The `User` table's uniqueness constraints: primary key `id` and
`UNIQUE` columns `email`, `username`, `walletAddress`.  An insert fails
with a constraint violation exactly when one of them collides with an
existing row. -/
def userInsertConflict (rows : List UserRow) (r : UserRow) : Bool :=
  rows.any (fun u =>
    u.id = r.id || u.email = r.email || u.username = r.username ||
      u.walletAddress = r.walletAddress)

/-- The `Video` table's only uniqueness constraint is the primary key. -/
def videoInsertConflict (rows : List VideoRow) (r : VideoRow) : Bool :=
  rows.any (fun v => v.id = r.id)

/-- `new Date().toISOString()` — injective rendering of a millisecond
timestamp (two calls at different instants always render differently,
and the rendering is never equal to a Postgres-formatted default). -/
def isoTimestamp (ms : Nat) : String :=
  String.append "ISO:" (toString ms)

/-- A flow's externally visible outcome (HTTP status plus the JSON body's
distinguishing content). -/
inductive ApiResponse where
  | err (status : Nat) (error : String)
  | registered (user : UserRow)
  | loggedIn (token : Jwt) (user : UserRow)
  | uploaded (video : VideoRow)
deriving DecidableEq

/-! ## Registration flow (`src/unnamed/part_005`) -/

structure RegisterRequest where
  email : String
  password : String

/-- Environment a single register request draws on: the bcrypt salt, the
fresh keypair from `ethers.Wallet.createRandom()` (identified by its
private key; its `address` field is `deriveAddress privateKey`), the
32-byte `salt` and 12-byte `iv` from `crypto.getRandomValues`, the
generated row id and the storage clock. -/
structure RegisterEnv where
  bcryptRand : Nat
  privateKey : String
  salt : List Nat
  iv : List Nat
  newUserId : Nat
  dbNow : String

/-- The email regex `/^[^\s@]+@[^\s@]+\.[^\s@]+$/` of the register
handler: one `@`, a nonempty whitespace-free local part, and a domain
containing a dot that is neither its first nor its last character, all
characters non-whitespace. -/
def emailFormatOk (s : String) : Bool :=
  match s.data.splitOn '@' with
  | [l, r] =>
      !l.isEmpty && l.all (fun c => !c.isWhitespace) &&
        r.all (fun c => !c.isWhitespace) && ((r.drop 1).dropLast).contains '.'
  | _ => false

/-- The `User` row the register handler assembles for insertion (lines
82–143 of part_005): bcrypt-hashed password, fresh wallet, wrapped key
bundle, `username` defaulted to the wallet address, email stored exactly
as supplied. -/
def registerRow (req : RegisterRequest) (env : RegisterEnv) : UserRow :=
  let walletAddress := deriveAddress env.privateKey
  let bundle := wrapKey env.privateKey req.password env.salt env.iv
  { id := env.newUserId
    email := req.email
    username := walletAddress
    passwordHash := bcryptHash req.password env.bcryptRand
    walletAddress := walletAddress
    encryptedPrivateKey := bundle.ciphertext
    salt := bundle.salt
    iv := bundle.iv
    createdAt := env.dbNow
    updatedAt := env.dbNow }

/-- The register handler.  `race` holds rows committed by other requests
between this request's duplicate-email check and its insert (`[]` in a
sequential run): the check runs against `db.users`, the insert's
uniqueness constraints against `db.users ++ race`. -/
def registerFlow (db : DB) (race : List UserRow) (req : RegisterRequest)
    (env : RegisterEnv) : ApiResponse × DB :=
  if req.email = "" ∨ req.password = "" then
    (.err 400 "Email and password are required", db)
  else if !emailFormatOk req.email then
    (.err 400 "Invalid email format", db)
  else if req.password.length < 8 then
    (.err 400 "Password must be at least 8 characters long", db)
  else
    match findUserByEmail db req.email with
    | some _ => (.err 409 "User already exists with this email", db)
    | none =>
        let newUser := registerRow req env
        let committed := db.users ++ race
        if userInsertConflict committed newUser then
          (.err 500 "Failed to create user account", ⟨committed, db.videos⟩)
        else
          (.registered newUser, ⟨committed ++ [newUser], db.videos⟩)

/-! ## Login flow (second handler in `index.ts`) -/

structure LoginRequest where
  email : String
  password : String

/-- Environment of a login request: the JS clock (one instant serves the
`iat`, `exp` and `updatedAt` computations, which the handler takes within
the same request) and the `JWT_SECRET` configuration. -/
structure LoginEnv where
  nowMs : Nat
  jwtSecret : String

def loginFlow (db : DB) (req : LoginRequest) (env : LoginEnv) :
    ApiResponse × DB :=
  if req.email = "" ∨ req.password = "" then
    (.err 400 "Email and password are required", db)
  else
    match findUserByEmail db req.email with
    | none => (.err 401 "Invalid email or password", db)
    | some user =>
        if !bcryptVerify req.password user.passwordHash then
          (.err 401 "Invalid email or password", db)
        else
          let payload : JwtPayload :=
            { sub := user.id
              email := user.email
              walletAddress := user.walletAddress
              iat := numericDate env.nowMs
              exp := numericDate (env.nowMs + 7 * 24 * 60 * 60 * 1000) }
          let token := jwtCreate env.jwtSecret payload
          let users := db.users.map (fun u =>
            if u.id = user.id then { u with updatedAt := isoTimestamp env.nowMs }
            else u)
          (.loggedIn token user, ⟨users, db.videos⟩)

/-! ## Authenticated signing flow (first handler in `index.ts`) -/

/-- The request body of `upload-video-metadata`; `auth` is the bearer
token extracted from the `Authorization` header (`none` when the header
is missing or lacks the `Bearer ` prefix). -/
structure UploadRequest where
  auth : Option Jwt
  videoUrl : String
  title : String
  password : String

structure UploadEnv where
  jwtSecret : String
  nowMs : Nat
  newVideoId : Nat
  dbNow : String

/-- The canonical message the handler signs (index.ts line 169). -/
def canonicalMessage (videoUrl title iso : String) : String :=
  "Video Upload: " ++ videoUrl ++ "\nTitle: " ++ title ++ "\nTimestamp: " ++ iso

def uploadFlow (db : DB) (req : UploadRequest) (env : UploadEnv) :
    ApiResponse × DB :=
  match req.auth with
  | none => (.err 401 "Missing or invalid authorization token", db)
  | some t =>
      match jwtVerify env.jwtSecret env.nowMs t with
      | none => (.err 401 "Invalid or expired token", db)
      | some payload =>
          if req.videoUrl = "" ∨ req.title = "" ∨ req.password = "" then
            (.err 400 "Video URL, title, and password are required", db)
          else
            match findUserById db payload.sub with
            | none => (.err 404 "User not found", db)
            | some user =>
                match unwrapKey ⟨user.salt, user.iv, user.encryptedPrivateKey⟩
                    req.password with
                | none => (.err 401 "Invalid password", db)
                | some decryptedPrivateKey =>
                    if deriveAddress decryptedPrivateKey ≠ user.walletAddress then
                      (.err 500 "Wallet address mismatch", db)
                    else
                      let message := canonicalMessage req.videoUrl req.title
                        (isoTimestamp env.nowMs)
                      let video : VideoRow :=
                        { id := env.newVideoId
                          title := req.title
                          videoUrl := req.videoUrl
                          ownerId := user.id
                          signature := signMessage decryptedPrivateKey message
                          createdAt := env.dbNow }
                      if videoInsertConflict db.videos video then
                        (.err 500 "Failed to save video metadata", db)
                      else
                        (.uploaded video, ⟨db.users, db.videos ++ [video]⟩)

/-! ## Concrete fixtures for the closed witness and counterexample
theorems -/

def regEnvA : RegisterEnv := ⟨7, "0xPK", [171, 5], [1, 2], 1, "DB:100"⟩

def regReqA : RegisterRequest := ⟨"a@x.com", "Abcd1234"⟩

/-- The store after one successful registration. -/
def dbA : DB := (registerFlow ⟨[], []⟩ [] regReqA regEnvA).2

/-- The row that registration stored. -/
def userA : UserRow := registerRow regReqA regEnvA

def payloadA : JwtPayload := ⟨1, "a@x.com", deriveAddress "0xPK", 5, 604805⟩

/-- A token as issued by login for `userA` at time 5000 ms. -/
def tokA : Jwt := jwtCreate "sec" payloadA

def envU : UploadEnv := ⟨"sec", 6000, 1, "DB:102"⟩

def regEnvB : RegisterEnv := ⟨8, "0xPK2", [9], [3], 2, "DB:101"⟩

/-! ## Claims -/

/-- C1.  Wrapped-key round-trip: for every private-key string `k` and
password `p`, unwrapping the bundle produced by `wrap(k, p)` with the same
password — PBKDF2 with the stored salt followed by AES-GCM decryption with
the stored iv, exactly as the signing flow performs it, including the hex
encode/decode of salt, iv and ciphertext in between — yields exactly `k`.
(The size side conditions hold for every real 32-byte salt, 12-byte iv and
66-character private key.) -/
theorem C1_wrap_unwrap_roundtrip (privateKey password : String)
    (salt iv : List Nat) (hs : ByteList salt) (hi : ByteList iv)
    (hsz : SmallSizes password salt iv) :
    unwrapKey (wrapKey privateKey password salt iv) password =
      some privateKey :=
  unwrapKey_wrapKey hs hi hsz

theorem C1_wrap_unwrap_roundtrip_witness :
    unwrapKey (wrapKey "0xPK" "Abcd1234" [171, 5] [1, 2]) "Abcd1234" =
      some "0xPK" :=
  C1_wrap_unwrap_roundtrip "0xPK" "Abcd1234" [171, 5] [1, 2]
    (by decide) (by decide) (by decide)

/-- C3.  Whenever AES-GCM decryption of the stored wrapped key fails in the
authenticated signing flow — in particular for every wrong password — the
flow answers with the single undifferentiated 401 "Invalid password"
response and the store is unchanged (no Artifact persisted). -/
theorem C3_wrong_password_aborts_unchanged :
    (∀ (db : DB) (req : UploadRequest) (env : UploadEnv) (t : Jwt)
        (payload : JwtPayload) (user : UserRow),
        req.auth = some t →
        jwtVerify env.jwtSecret env.nowMs t = some payload →
        req.videoUrl ≠ "" → req.title ≠ "" → req.password ≠ "" →
        findUserById db payload.sub = some user →
        unwrapKey ⟨user.salt, user.iv, user.encryptedPrivateKey⟩
          req.password = none →
        uploadFlow db req env = (.err 401 "Invalid password", db)) ∧
    (∀ (privateKey password p2 : String) (salt iv : List Nat),
        ByteList salt → ByteList iv → SmallSizes password salt iv →
        p2 ≠ password →
        unwrapKey (wrapKey privateKey password salt iv) p2 = none) := by
  constructor
  · intro db req env t payload user hauth hver hu ht hp huser hdec
    simp only [uploadFlow, hauth, hver, huser, hdec, hu, ht, hp, or_self,
      if_false, or_false, false_or]
  · intro privateKey password p2 salt iv hs hi hsz hne
    exact unwrapKey_wrapKey_wrong_password hs hi hsz hne

theorem C3_wrong_password_aborts_unchanged_witness :
    uploadFlow dbA ⟨some tokA, "https://cdn/v1.mp4", "My Clip", "wrongpass"⟩
        envU = (.err 401 "Invalid password", dbA) ∧
    unwrapKey (wrapKey "0xPK" "Abcd1234" [171, 5] [1, 2]) "wrongpass" =
      none :=
  ⟨C3_wrong_password_aborts_unchanged.1 dbA _ envU tokA payloadA userA
      rfl rfl (by decide) (by decide) (by decide) rfl (by decide),
    C3_wrong_password_aborts_unchanged.2 "0xPK" "Abcd1234" "wrongpass"
      [171, 5] [1, 2] (by decide) (by decide) (by decide) (by decide)⟩

/-- The Artifact row a successful signing call persists in the concrete
scenario: the handler passes only `title`, `videoUrl`, `ownerId` and
`signature` to the insert; `createdAt` is filled by the storage default. -/
def videoA : VideoRow :=
  { id := 1
    title := "My Clip"
    videoUrl := "https://cdn/v1.mp4"
    ownerId := 1
    signature := signMessage "0xPK"
      (canonicalMessage "https://cdn/v1.mp4" "My Clip" (isoTimestamp 6000))
    createdAt := "DB:102" }

/-- C2.  The signing flow signs a canonical message embedding
`new Date().toISOString()` (the JS clock, here instant 6000), but the
persisted Video row carries no timestamp field other than `createdAt`,
which the storage layer fills with its own default (`timezone('utc',
now())`, here the value "DB:102"): the ISO timestamp embedded in the
signed message is neither persisted nor equal to any stored field, so the
exact signed message cannot be reconstructed from the record. -/
theorem C2_signed_timestamp_not_persisted :
    uploadFlow dbA ⟨some tokA, "https://cdn/v1.mp4", "My Clip", "Abcd1234"⟩
        envU = (.uploaded videoA, ⟨dbA.users, [videoA]⟩) ∧
    videoA.signature.message =
      canonicalMessage "https://cdn/v1.mp4" "My Clip" (isoTimestamp 6000) ∧
    videoA.createdAt ≠ isoTimestamp 6000 ∧
    videoA.title ≠ isoTimestamp 6000 ∧
    videoA.videoUrl ≠ isoTimestamp 6000 := by
  refine ⟨?_, rfl, by decide, by decide, by decide⟩
  decide

/-- C4 counterexample.  A registration that passes the duplicate-email
check against an empty store, but whose insert collides with a row
committed concurrently (same email), is answered with the generic 500
"Failed to create user account", not with the 409 EmailTaken conflict the
claim requires. -/
theorem C4_race_counterexample :
    (registerFlow ⟨[], []⟩ [userA] regReqA regEnvB).1 =
      .err 500 "Failed to create user account" ∧
    (registerFlow ⟨[], []⟩ [userA] regReqA regEnvB).1 ≠
      .err 409 "User already exists with this email" := by
  constructor
  · decide
  · decide

/-- C4 amended.  A uniqueness violation at insert time (after the
pre-insert duplicate check passed) is reported as the generic 500
persistence failure "Failed to create user account"; only the pre-insert
check itself produces the 409 EmailTaken conflict. -/
theorem C4_insert_conflict_is_500 (db : DB) (race : List UserRow)
    (req : RegisterRequest) (env : RegisterEnv)
    (he : req.email ≠ "") (hp : req.password ≠ "")
    (hfmt : emailFormatOk req.email = true)
    (hlen : ¬ req.password.length < 8)
    (hchk : findUserByEmail db req.email = none)
    (hconf : userInsertConflict (db.users ++ race) (registerRow req env)
      = true) :
    registerFlow db race req env =
      (.err 500 "Failed to create user account",
        ⟨db.users ++ race, db.videos⟩) := by
  simp only [registerFlow, he, hp, hfmt, hlen, hchk, hconf, or_self,
    if_false, Bool.not_true, Bool.false_eq_true, if_true]

theorem C4_insert_conflict_is_500_witness :
    registerFlow ⟨[], []⟩ [userA] regReqA regEnvB =
      (.err 500 "Failed to create user account", ⟨[userA], []⟩) :=
  C4_insert_conflict_is_500 ⟨[], []⟩ [userA] regReqA regEnvB
    (by decide) (by decide) (by decide) (by decide) rfl (by decide)

/-- C5 counterexample.  With "a@x.com" registered, a registration for
"A@x.com" (differing only in letter case) is not rejected: the
case-sensitive `.eq('email', …)` check finds nothing, the insert succeeds,
and the store ends up with two Accounts whose emails differ only in case. -/
theorem C5_case_counterexample :
    (registerFlow dbA [] ⟨"A@x.com", "Abcd1234"⟩ regEnvB).1 =
      .registered (registerRow ⟨"A@x.com", "Abcd1234"⟩ regEnvB) ∧
    (registerFlow dbA [] ⟨"A@x.com", "Abcd1234"⟩ regEnvB).1 ≠
      .err 409 "User already exists with this email" ∧
    (registerFlow dbA [] ⟨"A@x.com", "Abcd1234"⟩ regEnvB).2.users.map
      (fun u => u.email) = ["a@x.com", "A@x.com"] := by
  refine ⟨by decide, by decide, by decide⟩

/-- C5 amended.  The duplicate-email rejection is a case-sensitive exact
string match: a registration is answered with 409 EmailTaken exactly when
a stored row's email equals the requested email verbatim, and on success
the email is persisted exactly as supplied, with no lowercase
normalization. -/
theorem C5_email_check_case_sensitive (db : DB) (req : RegisterRequest)
    (env : RegisterEnv)
    (he : req.email ≠ "") (hp : req.password ≠ "")
    (hfmt : emailFormatOk req.email = true)
    (hlen : ¬ req.password.length < 8) :
    ((registerFlow db [] req env).1 =
        .err 409 "User already exists with this email" ↔
      (findUserByEmail db req.email).isSome) ∧
    (registerRow req env).email = req.email := by
  refine ⟨?_, rfl⟩
  constructor
  · intro h
    by_contra hnone
    rw [Option.not_isSome_iff_eq_none] at hnone
    simp only [registerFlow, he, hp, hfmt, hlen, hnone, or_self, if_false,
      Bool.not_true, Bool.false_eq_true, if_true] at h
    by_cases hc : userInsertConflict db.users (registerRow req env) = true
    · simp [hc] at h
    · simp [hc] at h
  · intro h
    rw [Option.isSome_iff_exists] at h
    obtain ⟨u, hu⟩ := h
    simp only [registerFlow, he, hp, hfmt, hlen, hu, or_self, if_false,
      Bool.not_true, Bool.false_eq_true, if_true]

theorem C5_email_check_case_sensitive_witness :
    ((registerFlow dbA [] ⟨"A@x.com", "Abcd1234"⟩ regEnvB).1 =
        .err 409 "User already exists with this email" ↔
      (findUserByEmail dbA "A@x.com").isSome) ∧
    (registerRow ⟨"A@x.com", "Abcd1234"⟩ regEnvB).email = "A@x.com" :=
  C5_email_check_case_sensitive dbA ⟨"A@x.com", "Abcd1234"⟩ regEnvB
    (by decide) (by decide) (by decide) (by decide)

/-- C6.  When decryption of the wrapped key succeeds but the address
re-derived from the decrypted private key differs from the account's
stored `walletAddress`, the signing flow aborts with the internal-error
signal 500 "Wallet address mismatch" (distinct from the 401
WrongPassword), and the store is unchanged. -/
theorem C6_address_mismatch_500 (db : DB) (req : UploadRequest)
    (env : UploadEnv) (t : Jwt) (payload : JwtPayload) (user : UserRow)
    (pk : String)
    (hauth : req.auth = some t)
    (hver : jwtVerify env.jwtSecret env.nowMs t = some payload)
    (hu : req.videoUrl ≠ "") (ht : req.title ≠ "") (hp : req.password ≠ "")
    (huser : findUserById db payload.sub = some user)
    (hdec : unwrapKey ⟨user.salt, user.iv, user.encryptedPrivateKey⟩
      req.password = some pk)
    (hmm : deriveAddress pk ≠ user.walletAddress) :
    uploadFlow db req env = (.err 500 "Wallet address mismatch", db) := by
  simp only [uploadFlow, hauth, hver, huser, hdec, hu, ht, hp, hmm, or_self,
    if_false, or_false, false_or, ne_eq, not_false_eq_true, if_true]

/-- A store whose single row has a corrupted `walletAddress`: decryption
still succeeds, but the re-derived address no longer matches. -/
def userCorrupt : UserRow := { userA with walletAddress := "corrupt" }

def dbCorrupt : DB := ⟨[userCorrupt], []⟩

def tokCorrupt : Jwt := jwtCreate "sec" ⟨1, "a@x.com", "corrupt", 5, 604805⟩

theorem C6_address_mismatch_500_witness :
    uploadFlow dbCorrupt
        ⟨some tokCorrupt, "https://cdn/v1.mp4", "My Clip", "Abcd1234"⟩ envU =
      (.err 500 "Wallet address mismatch", dbCorrupt) :=
  C6_address_mismatch_500 dbCorrupt _ envU tokCorrupt _ userCorrupt "0xPK"
    rfl rfl (by decide) (by decide) (by decide) rfl (by decide) (by decide)

theorem numericDate_add_week (t : Nat) :
    numericDate (t + 7 * 24 * 60 * 60 * 1000) = numericDate t + 604800 := by
  simp only [numericDate]
  omega

/-- C7.  Token lifecycle: a token issued at login carries
`iat = round(now / 1000)` and `exp = iat + 604800` (exactly 7 days),
MAC-bound to the server secret; verification accepts it strictly before
`exp` and rejects it strictly after `exp`, any token whose MAC does not
bind the secret to its own payload (any byte-level alteration) is
rejected, and in the signing flow every verification failure surfaces as
the 401 "Invalid or expired token" response. -/
theorem C7_token_lifecycle :
    (∀ (db : DB) (req : LoginRequest) (env : LoginEnv) (user : UserRow),
        req.email ≠ "" → req.password ≠ "" →
        findUserByEmail db req.email = some user →
        bcryptVerify req.password user.passwordHash = true →
        (loginFlow db req env).1 =
          .loggedIn (jwtCreate env.jwtSecret
            { sub := user.id
              email := user.email
              walletAddress := user.walletAddress
              iat := numericDate env.nowMs
              exp := numericDate env.nowMs + 604800 }) user) ∧
    (∀ (secret : String) (p : JwtPayload) (nowMs : Nat),
        nowMs < 1000 * p.exp →
        jwtVerify secret nowMs (jwtCreate secret p) = some p) ∧
    (∀ (secret : String) (p : JwtPayload) (nowMs : Nat),
        1000 * p.exp < nowMs →
        jwtVerify secret nowMs (jwtCreate secret p) = none) ∧
    (∀ (secret : String) (nowMs : Nat) (t : Jwt),
        t.mac ≠ (secret, t.payload) →
        jwtVerify secret nowMs t = none) ∧
    (∀ (db : DB) (req : UploadRequest) (env : UploadEnv) (t : Jwt),
        req.auth = some t →
        jwtVerify env.jwtSecret env.nowMs t = none →
        uploadFlow db req env = (.err 401 "Invalid or expired token", db)) := by
  refine ⟨?_, ?_, ?_, ?_, ?_⟩
  · intro db req env user he hp hfind hverify
    simp only [loginFlow, he, hp, hfind, hverify, or_self, if_false,
      Bool.not_true, Bool.false_eq_true, if_true, numericDate_add_week]
  · intro secret p nowMs hlt
    have hne : ¬ 1000 * p.exp < nowMs := by omega
    simp [jwtVerify, jwtCreate, hne]
  · intro secret p nowMs hlt
    simp [jwtVerify, jwtCreate, hlt]
  · intro secret nowMs t hmac
    simp [jwtVerify, hmac]
  · intro db req env t hauth hver
    simp only [uploadFlow, hauth, hver]

theorem C7_token_lifecycle_witness :
    (loginFlow dbA ⟨"a@x.com", "Abcd1234"⟩ ⟨5000, "sec"⟩).1 =
      .loggedIn (jwtCreate "sec" payloadA) userA ∧
    jwtVerify "sec" 6000 (jwtCreate "sec" payloadA) = some payloadA ∧
    jwtVerify "sec" 604805001 (jwtCreate "sec" payloadA) = none ∧
    jwtVerify "sec" 6000 ⟨⟨2, "b@x.com", "w", 5, 604805⟩, ("sec", payloadA)⟩
      = none ∧
    uploadFlow dbA ⟨some tokA, "https://cdn/v1.mp4", "My Clip", "Abcd1234"⟩
        ⟨"sec", 604805001, 1, "DB:102"⟩ =
      (.err 401 "Invalid or expired token", dbA) := by
  refine ⟨?_, ?_, ?_, ?_, ?_⟩
  · exact C7_token_lifecycle.1 dbA ⟨"a@x.com", "Abcd1234"⟩ ⟨5000, "sec"⟩
      userA (by decide) (by decide) rfl rfl
  · exact C7_token_lifecycle.2.1 "sec" payloadA 6000 (by decide)
  · exact C7_token_lifecycle.2.2.1 "sec" payloadA 604805001 (by decide)
  · exact C7_token_lifecycle.2.2.2.1 "sec" 6000 _ (by decide)
  · exact C7_token_lifecycle.2.2.2.2 dbA _ ⟨"sec", 604805001, 1, "DB:102"⟩
      tokA rfl (by decide)

/-- C8.  Frame property of login: a successful login rewrites exactly the
matching user's `updatedAt` to the current time and leaves every other
field, every other row and the whole Video table unchanged; a failed
login (unknown email, wrong password, or missing input) leaves the store
exactly as it was. -/
theorem C8_login_frame :
    (∀ (db : DB) (req : LoginRequest) (env : LoginEnv) (user : UserRow),
        req.email ≠ "" → req.password ≠ "" →
        findUserByEmail db req.email = some user →
        bcryptVerify req.password user.passwordHash = true →
        (loginFlow db req env).2 =
          ⟨db.users.map (fun u =>
              if u.id = user.id then { u with updatedAt := isoTimestamp env.nowMs }
              else u),
            db.videos⟩) ∧
    (∀ (db : DB) (req : LoginRequest) (env : LoginEnv),
        findUserByEmail db req.email = none →
        (loginFlow db req env).2 = db) ∧
    (∀ (db : DB) (req : LoginRequest) (env : LoginEnv) (user : UserRow),
        findUserByEmail db req.email = some user →
        bcryptVerify req.password user.passwordHash = false →
        (loginFlow db req env).2 = db) := by
  refine ⟨?_, ?_, ?_⟩
  · intro db req env user he hp hfind hverify
    simp only [loginFlow, he, hp, hfind, hverify, or_self, if_false,
      Bool.not_true, Bool.false_eq_true, if_true]
  · intro db req env hfind
    by_cases hval : req.email = "" ∨ req.password = ""
    · simp only [loginFlow, hval, if_true]
    · simp only [loginFlow, hval, if_false, hfind]
  · intro db req env user hfind hverify
    by_cases hval : req.email = "" ∨ req.password = ""
    · simp only [loginFlow, hval, if_true]
    · simp only [loginFlow, hval, if_false, hfind, hverify, Bool.not_false,
        if_true]

theorem C8_login_frame_witness :
    (loginFlow dbA ⟨"a@x.com", "Abcd1234"⟩ ⟨5000, "sec"⟩).2 =
      ⟨[{ userA with updatedAt := isoTimestamp 5000 }], []⟩ ∧
    (loginFlow dbA ⟨"nobody@x.com", "Abcd1234"⟩ ⟨5000, "sec"⟩).2 = dbA ∧
    (loginFlow dbA ⟨"a@x.com", "wrongpass"⟩ ⟨5000, "sec"⟩).2 = dbA := by
  refine ⟨?_, ?_, ?_⟩
  · have := C8_login_frame.1 dbA ⟨"a@x.com", "Abcd1234"⟩ ⟨5000, "sec"⟩
      userA (by decide) (by decide) rfl rfl
    rw [this]
    decide
  · exact C8_login_frame.2.1 dbA ⟨"nobody@x.com", "Abcd1234"⟩ ⟨5000, "sec"⟩
      (by decide)
  · exact C8_login_frame.2.2 dbA ⟨"a@x.com", "wrongpass"⟩ ⟨5000, "sec"⟩
      userA rfl (by decide)

/-- C9.  A validly MAC-bound, unexpired token whose subject id matches no
stored Account makes the signing flow fail with the distinct 404 "User
not found" response; the store is unchanged and the outcome is the same
for every supplied password — the flow never reaches key derivation or
decryption. -/
theorem C9_unknown_subject_404 (db : DB) (req : UploadRequest)
    (env : UploadEnv) (t : Jwt) (payload : JwtPayload)
    (hauth : req.auth = some t)
    (hver : jwtVerify env.jwtSecret env.nowMs t = some payload)
    (hu : req.videoUrl ≠ "") (ht : req.title ≠ "") (hp : req.password ≠ "")
    (huser : findUserById db payload.sub = none) :
    uploadFlow db req env = (.err 404 "User not found", db) ∧
    ∀ p2 : String, p2 ≠ "" →
      uploadFlow db { req with password := p2 } env =
        (.err 404 "User not found", db) := by
  constructor
  · simp only [uploadFlow, hauth, hver, huser, hu, ht, hp, or_self,
      if_false, or_false, false_or]
  · intro p2 hp2
    simp only [uploadFlow, hauth, hver, huser, hu, ht, hp2, or_self,
      if_false, or_false, false_or]

def tokNoUser : Jwt := jwtCreate "sec" ⟨99, "ghost@x.com", "0xghost", 5, 604805⟩

theorem C9_unknown_subject_404_witness :
    uploadFlow dbA ⟨some tokNoUser, "https://cdn/v1.mp4", "My Clip",
        "Abcd1234"⟩ envU = (.err 404 "User not found", dbA) ∧
    ∀ p2 : String, p2 ≠ "" →
      uploadFlow dbA ⟨some tokNoUser, "https://cdn/v1.mp4", "My Clip", p2⟩
        envU = (.err 404 "User not found", dbA) :=
  C9_unknown_subject_404 dbA
    ⟨some tokNoUser, "https://cdn/v1.mp4", "My Clip", "Abcd1234"⟩ envU
    tokNoUser _ rfl rfl (by decide) (by decide) (by decide) rfl

/-- C10.  Login does not reveal account existence: a login with an email
mapping to no Account and a login with a registered email but a password
failing bcrypt verification produce the identical external result — the
same 401 response with the same "Invalid email or password" message. -/
theorem C10_login_no_existence_oracle (db : DB) (req1 req2 : LoginRequest)
    (env1 env2 : LoginEnv) (user : UserRow)
    (h1e : req1.email ≠ "") (h1p : req1.password ≠ "")
    (h2e : req2.email ≠ "") (h2p : req2.password ≠ "")
    (hnone : findUserByEmail db req1.email = none)
    (hsome : findUserByEmail db req2.email = some user)
    (hbad : bcryptVerify req2.password user.passwordHash = false) :
    (loginFlow db req1 env1).1 = .err 401 "Invalid email or password" ∧
    (loginFlow db req2 env2).1 = .err 401 "Invalid email or password" ∧
    (loginFlow db req1 env1).1 = (loginFlow db req2 env2).1 := by
  have ha : (loginFlow db req1 env1).1 =
      .err 401 "Invalid email or password" := by
    simp only [loginFlow, h1e, h1p, hnone, or_self, if_false]
  have hb : (loginFlow db req2 env2).1 =
      .err 401 "Invalid email or password" := by
    simp only [loginFlow, h2e, h2p, hsome, hbad, or_self, if_false,
      Bool.not_false, if_true]
  exact ⟨ha, hb, ha.trans hb.symm⟩

theorem C10_login_no_existence_oracle_witness :
    (loginFlow dbA ⟨"nobody@x.com", "Abcd1234"⟩ ⟨5000, "sec"⟩).1 =
      .err 401 "Invalid email or password" ∧
    (loginFlow dbA ⟨"a@x.com", "wrongpass"⟩ ⟨5000, "sec"⟩).1 =
      .err 401 "Invalid email or password" ∧
    (loginFlow dbA ⟨"nobody@x.com", "Abcd1234"⟩ ⟨5000, "sec"⟩).1 =
      (loginFlow dbA ⟨"a@x.com", "wrongpass"⟩ ⟨5000, "sec"⟩).1 :=
  C10_login_no_existence_oracle dbA ⟨"nobody@x.com", "Abcd1234"⟩
    ⟨"a@x.com", "wrongpass"⟩ ⟨5000, "sec"⟩ ⟨5000, "sec"⟩ userA
    (by decide) (by decide) (by decide) (by decide) (by decide) rfl
    (by decide)
